import Mathlib

/-!
# Worker-thread lifecycle: `Thread`, `ActivatedThread`, `PeriodicThread`

A shallow embedding of `Thread.cpp` / `Thread.h`.

* Each object is a record of its C++ members plus the locals of its thread
  function, so that one pass through the body of the `while ( !done )` loop is
  a pure function on that record.
* The Win32 primitives are replaced by their effect on the record: an event is a
  `Bool` (signalled or not), `WaitForSingleObject` is represented by the `DWORD`
  it returns, `timeGetTime` by the `DWORD` it returns.
* `Main` is the pure virtual unit of work.  It is a parameter
  `Main : σ → Ptr → σ × Bool` acting on the state `σ` of the derived class.
* `calls` is a history variable: the arguments `Main` has been invoked with,
  oldest first.
* 32-bit machine arithmetic (`DWORD`, `long`, `int`) is written out with
  explicit reductions modulo `2^32`.
-/

namespace ThreadLib

/-! ## Machine integers and Win32 constants -/

/-- Conversion of an integer value to `DWORD` (`unsigned long`, 32 bits):
reduction modulo `2^32`. A `DWORD` is kept as a natural number. -/
def toDWORD (z : Int) : Nat := (z % 4294967296).toNat

/-- Conversion of a `DWORD` bit pattern to `long` (32 bits, two's complement). -/
def toLong (d : Nat) : Int :=
  if d % 4294967296 < 2147483648 then ((d % 4294967296 : Nat) : Int)
  else ((d % 4294967296 : Nat) : Int) - 4294967296

/-- Win32 `WAIT_OBJECT_0`. -/
def WAIT_OBJECT_0 : Nat := 0
/-- Win32 `WAIT_ABANDONED`. -/
def WAIT_ABANDONED : Nat := 0x80
/-- Win32 `WAIT_TIMEOUT`. -/
def WAIT_TIMEOUT : Nat := 0x102
/-- Win32 `WAIT_FAILED`. -/
def WAIT_FAILED : Nat := 0xFFFFFFFF
/-- Win32 `INFINITE`. -/
def INFINITE : Nat := 0xFFFFFFFF

/-- The values `WaitForSingleObject` is documented to return. -/
def documentedWaitResult (signal : Nat) : Prop :=
  signal = WAIT_ABANDONED ∨ signal = WAIT_OBJECT_0 ∨ signal = WAIT_TIMEOUT ∨ signal = WAIT_FAILED

/-- The wait results other than "the object is signalled". -/
def abnormalWaitResult (signal : Nat) : Prop :=
  signal = WAIT_ABANDONED ∨ signal = WAIT_TIMEOUT ∨ signal = WAIT_FAILED

/-! ## Context pointers -/

/-- A `void *` context value: the null pointer, the address of the static member
`ActivatedThread::m_ExitCommand`, or the address of some other object. Only the
identity of a pointer is ever inspected. -/
inductive Ptr where
  | null : Ptr
  | exitCommand : Ptr
  | object (address : Nat) : Ptr
  deriving DecidableEq, Repr

/-! ## ActivatedThread -/

/-- The members of an `ActivatedThread` object together with the state of its
thread. -/
structure ActivatedThread (σ : Type) where
  /-- Member `Thread::m_pContext`: the one-slot mailbox. -/
  m_pContext : Ptr
  /-- Member `m_ActivationEvent`, a manual-reset event: `true` when signalled. -/
  m_ActivationEvent : Bool
  /-- Local `done` of `ThreadMain`; once `true` the loop is left and the thread returns. -/
  done : Bool
  /-- The thread was ended by `TerminateThread`. -/
  terminated : Bool
  /-- State of the derived class, touched by `Main` only. -/
  user : σ
  /-- History of the arguments `Main` was invoked with, oldest first. -/
  calls : List Ptr

namespace ActivatedThread

variable {σ : Type}

/-- Member function `Thread::SetContext`. -/
def SetContext (pContext : Ptr) (t : ActivatedThread σ) : ActivatedThread σ :=
  { t with m_pContext := pContext }

/-- Member function `Thread::GetContext`. -/
def GetContext (t : ActivatedThread σ) : Ptr := t.m_pContext

/-- Win32 `SetEvent( m_ActivationEvent )`. -/
def SetEvent (t : ActivatedThread σ) : ActivatedThread σ :=
  { t with m_ActivationEvent := true }

/-- Win32 `ResetEvent( m_ActivationEvent )`. -/
def ResetEvent (t : ActivatedThread σ) : ActivatedThread σ :=
  { t with m_ActivationEvent := false }

/-- Member function `ActivatedThread::Activate`: inside the critical section, store the context
and signal the event. -/
def Activate (pContext : Ptr) (t : ActivatedThread σ) : ActivatedThread σ :=
  SetEvent (SetContext pContext t)

/-- The `switch ( signal )` of `ActivatedThread::ThreadMain`: the value given to
the local `pContext`, and the object afterwards. The last arm is `default:`,
taken with `assert` compiled out; no documented wait result reaches it. -/
def ThreadMain_switch (signal : Nat) (t : ActivatedThread σ) : Ptr × ActivatedThread σ :=
  if signal = WAIT_ABANDONED then (Ptr.exitCommand, t)
  else if signal = WAIT_OBJECT_0 then (GetContext t, ResetEvent (SetContext Ptr.null t))
  else if signal = WAIT_TIMEOUT then (Ptr.exitCommand, t)
  else if signal = WAIT_FAILED then (Ptr.exitCommand, t)
  else (Ptr.exitCommand, t)

/-- One pass through the body of `while ( !done )` in
`ActivatedThread::ThreadMain`, once `WaitForSingleObject` has returned `signal`. -/
def ThreadMain_body (Main : σ → Ptr → σ × Bool) (signal : Nat) (t : ActivatedThread σ) :
    ActivatedThread σ :=
  let r := ThreadMain_switch signal t
  if r.1 ≠ Ptr.exitCommand then
    let m := Main r.2.user r.1
    { r.2 with user := m.1, done := m.2, calls := r.2.calls ++ [r.1] }
  else
    { r.2 with done := true }

/-- The thread has left `ThreadMain` or has been terminated: its handle is
signalled. -/
def exited (t : ActivatedThread σ) : Bool := t.done || t.terminated

/-- The thread is inside the loop, at `WaitForSingleObject`. -/
def waiting (t : ActivatedThread σ) : Bool := !t.exited

/-- Whether `WaitForSingleObject( m_ActivationEvent, INFINITE )` can return
`signal` now: "signalled" needs the event to be signalled, the other results are
reported by the system whatever the state of the event. -/
def waitReturns (signal : Nat) (t : ActivatedThread σ) : Bool :=
  decide (signal ≠ WAIT_OBJECT_0) || t.m_ActivationEvent

/-- A scheduling step of the worker thread: if it is still in the loop and its
wait can return `signal`, it runs one pass of the loop body; otherwise nothing
happens (the thread is gone, or it stays blocked). -/
def ThreadMain_step (Main : σ → Ptr → σ × Bool) (signal : Nat) (t : ActivatedThread σ) :
    ActivatedThread σ :=
  if t.exited then t
  else if waitReturns signal t then ThreadMain_body Main signal t
  else t

/-- Win32 `TerminateThread( m_Handle, 0 )`: no effect on a thread that has
already returned. -/
def TerminateThread (t : ActivatedThread σ) : ActivatedThread σ :=
  if t.exited then t else { t with terminated := true }

/-- The call `WaitForSingleObject( m_Handle, INFINITE )` made by the owner while no
other thread touches the object: it returns at once when the worker has
exited; otherwise the worker is the only thread that can run, its wait returns
exactly when the event is signalled, and the owner is released when that pass
leaves the loop. `none`: the owner waits for ever. -/
def joinThread (Main : σ → Ptr → σ × Bool) (t : ActivatedThread σ) : Option (ActivatedThread σ) :=
  if t.exited then some t
  else
    let t1 := ThreadMain_step Main WAIT_OBJECT_0 t
    if t1.exited then some t1 else none

/-- Member function `ActivatedThread::End`. -/
def End (Main : σ → Ptr → σ × Bool) (wait : Bool) (t : ActivatedThread σ) :
    Option (ActivatedThread σ) :=
  if wait then joinThread Main (Activate Ptr.exitCommand t)
  else some (TerminateThread t)

/-- What can happen to an `ActivatedThread`: calls made by its owner, and
scheduling steps of its worker thread. -/
inductive Op where
  | activate (pContext : Ptr) : Op
  | stop (wait : Bool) : Op
  | wake (signal : Nat) : Op

/-- Effect of one operation; `none` when the operation never returns. -/
def exec (Main : σ → Ptr → σ × Bool) (t : ActivatedThread σ) : Op → Option (ActivatedThread σ)
  | Op.activate pContext => some (Activate pContext t)
  | Op.stop wait => End Main wait t
  | Op.wake signal => some (ThreadMain_step Main signal t)

/-- Effect of a sequence of operations, left to right. -/
def run (Main : σ → Ptr → σ × Bool) : ActivatedThread σ → List Op → Option (ActivatedThread σ)
  | t, [] => some t
  | t, op :: ops => (exec Main t op).bind (fun t1 => run Main t1 ops)

/-- A concrete unit of work for the examples: it counts its invocations and
asks to stop when handed the object at address `7`. -/
def exampleMain (n : Nat) (pContext : Ptr) : Nat × Bool :=
  (n + 1, decide (pContext = Ptr.object 7))

/-- A waiting worker for the examples. -/
def exampleWaiting : ActivatedThread Nat :=
  { m_pContext := Ptr.null, m_ActivationEvent := false, done := false, terminated := false,
    user := 0, calls := [] }

/-- The worker of the examples after `End( true )`. -/
def exampleStopped : ActivatedThread Nat :=
  { m_pContext := Ptr.null, m_ActivationEvent := false, done := true, terminated := false,
    user := 0, calls := [] }

end ActivatedThread

/-! ## PeriodicThread -/

/-- The members of a `PeriodicThread` object together with the locals of its
thread function. -/
structure PeriodicThread (σ : Type) where
  /-- Member `Thread::m_pContext`. -/
  m_pContext : Ptr
  /-- Member `m_SyncPeriod`, an `int`. -/
  m_SyncPeriod : Int
  /-- Member `m_ActivationEvent`, a manual-reset event: `true` when signalled. -/
  m_ActivationEvent : Bool
  /-- Local `done` of `ThreadMain`. -/
  done : Bool
  /-- Local `nextUpdateTime` of `ThreadMain`, a `DWORD`. -/
  nextUpdateTime : Nat
  /-- Local `pContext` of `ThreadMain`, the thread's own copy of the context. -/
  pContext : Ptr
  /-- State of the derived class, touched by `Main` only. -/
  user : σ
  /-- History of the arguments `Main` was invoked with, oldest first. -/
  calls : List Ptr

namespace PeriodicThread

variable {σ : Type}

/-- The condition of `assert( period > 0 && period != INFINITE )` in the
constructor. In `period != INFINITE` the `int` is converted to `DWORD`. -/
def precondition (period : Int) : Bool :=
  decide (period > 0) && decide (toDWORD period ≠ INFINITE)

/-- The test `m_SyncPeriod == INFINITE` of `ThreadMain`, the `int` converted to
`DWORD`: the period is the "no periodic wake" value. -/
def noPeriodicWake (period : Int) : Bool := decide (toDWORD period = INFINITE)

/-- The object when its thread reaches `while ( !done )` for the first time:
the constructor has stored `period` and `pContext`, the event is not
signalled, and `ThreadMain` has read the clock (`now`) and copied the context. -/
def start (period : Int) (pContext : Ptr) (user : σ) (now : Nat) : PeriodicThread σ :=
  { m_pContext := pContext
    m_SyncPeriod := period
    m_ActivationEvent := false
    done := false
    nextUpdateTime := now
    pContext := pContext
    user := user
    calls := [] }

/-- The value given to the local `timeTillNextUpdate` (a `long`) when the clock
reads `currentTime`. -/
def timeTillNextUpdate (currentTime : Nat) (t : PeriodicThread σ) : Int :=
  if noPeriodicWake t.m_SyncPeriod then toLong INFINITE
  else max (toLong (toDWORD ((t.nextUpdateTime : Int) + t.m_SyncPeriod - (currentTime : Int)))) 0

/-- The first part of the loop body, "figure out how long to wait": the object
with `nextUpdateTime` updated. -/
def ThreadMain_schedule (currentTime : Nat) (t : PeriodicThread σ) : PeriodicThread σ :=
  if noPeriodicWake t.m_SyncPeriod then t
  else { t with nextUpdateTime := toDWORD ((currentTime : Int) + timeTillNextUpdate currentTime t) }

/-- The timeout handed to `WaitForSingleObject`: `timeTillNextUpdate` converted
to `DWORD`. -/
def waitTimeout (currentTime : Nat) (t : PeriodicThread σ) : Nat :=
  toDWORD (timeTillNextUpdate currentTime t)

/-- The `switch ( signal )` of `PeriodicThread::ThreadMain`. The last arm is
`default:`, taken with `assert` compiled out; no documented wait result reaches
it. -/
def ThreadMain_switch (Main : σ → Ptr → σ × Bool) (signal : Nat) (t : PeriodicThread σ) :
    PeriodicThread σ :=
  if signal = WAIT_ABANDONED then { t with done := true }
  else if signal = WAIT_OBJECT_0 then { t with done := true }
  else if signal = WAIT_TIMEOUT then
    let m := Main t.user t.pContext
    { t with user := m.1, done := m.2, calls := t.calls ++ [t.pContext] }
  else if signal = WAIT_FAILED then { t with done := true }
  else { t with done := true }

/-- One pass through the body of `while ( !done )` in
`PeriodicThread::ThreadMain`: the clock reads `currentTime`, then the wait
returns `signal`. -/
def ThreadMain_body (Main : σ → Ptr → σ × Bool) (currentTime signal : Nat)
    (t : PeriodicThread σ) : PeriodicThread σ :=
  ThreadMain_switch Main signal (ThreadMain_schedule currentTime t)

/-- The loop `while ( !done )`, driven by the successive clock readings and
wait results. -/
def ThreadMain_loop (Main : σ → Ptr → σ × Bool) :
    List (Nat × Nat) → PeriodicThread σ → PeriodicThread σ
  | [], t => t
  | (currentTime, signal) :: rest, t =>
    if t.done then t else ThreadMain_loop Main rest (ThreadMain_body Main currentTime signal t)

/-- The first statement of `PeriodicThread::End( true )`: signal the event. -/
def SetEvent (t : PeriodicThread σ) : PeriodicThread σ :=
  { t with m_ActivationEvent := true }

/-- A run in which every wait ends by timeout, given the clock reading at the
top of each pass. -/
def timeoutRun (Main : σ → Ptr → σ × Bool) (readings : List Nat) (t : PeriodicThread σ) :
    PeriodicThread σ :=
  ThreadMain_loop Main (readings.map (fun c => (c, WAIT_TIMEOUT))) t

/-- The unit of work takes negligible time: each clock reading at the top of a
pass lies at or after the scheduled wake held in `nextUpdateTime` and less than
one period after it, in 32-bit tick arithmetic. -/
def negligible (Main : σ → Ptr → σ × Bool) : List Nat → PeriodicThread σ → Prop
  | [], _ => True
  | c :: rest, t =>
    ((toDWORD ((c : Int) - (t.nextUpdateTime : Int)) : Nat) : Int) < t.m_SyncPeriod ∧
      negligible Main rest (ThreadMain_body Main c WAIT_TIMEOUT t)

/-- A counting unit of work: it adds one to a counter and asks to continue. -/
def countingMain (n : Nat) (_pContext : Ptr) : Nat × Bool := (n + 1, false)

/-- A simulated-time run. `clock` is the simulated time in ticks; the unit of
work takes no time, nobody signals the event, and a wait with timeout `d`
started at `clock` ends by timeout at `clock + d`. The run stops at the first
wait that would end after `deadline`; wakes at `deadline` itself are served. -/
def simulate (Main : σ → Ptr → σ × Bool) (deadline : Nat) :
    Nat → Nat → PeriodicThread σ → PeriodicThread σ
  | 0, _, t => t
  | fuel + 1, clock, t =>
    if t.done then t
    else
      let currentTime : Nat := clock % 4294967296
      let d := waitTimeout currentTime t
      if d = INFINITE then ThreadMain_schedule currentTime t
      else if deadline < clock + d then ThreadMain_schedule currentTime t
      else simulate Main deadline fuel (clock + d) (ThreadMain_body Main currentTime WAIT_TIMEOUT t)

end PeriodicThread

/-! ## Construction and the resources it holds -/

/-- A Win32 `HANDLE`; `0` is `NULL`. -/
abbrev HANDLE := Nat

/-- An operating-system resource held by the process. -/
inductive Resource where
  | criticalSection (address : Nat) : Resource
  | handle (h : HANDLE) : Resource
  deriving DecidableEq, Repr

/-- The resources held by the process. -/
abbrev Resources := List Resource

/-- Win32 `InitializeCriticalSection`. -/
def InitializeCriticalSection (address : Nat) (held : Resources) : Resources :=
  Resource.criticalSection address :: held

/-- Win32 `DeleteCriticalSection`. -/
def DeleteCriticalSection (address : Nat) (held : Resources) : Resources :=
  held.erase (Resource.criticalSection address)

/-- Win32 `CreateEvent` returning `h`: `NULL` on failure, else a handle that is
now held. -/
def CreateEvent (h : HANDLE) (held : Resources) : Resources :=
  if h = 0 then held else Resource.handle h :: held

/-- The call `_beginthreadex` returning `h`: `0` on failure, else the handle of
the new thread, now held. -/
def beginthreadex (h : HANDLE) (held : Resources) : Resources :=
  if h = 0 then held else Resource.handle h :: held

/-- Win32 `CloseHandle`: fails without effect on `NULL` and on a value that is
not a handle held by the process. -/
def CloseHandle (h : HANDLE) (held : Resources) : Resources :=
  if h = 0 then held else held.erase (Resource.handle h)

/-- How a constructor can end other than by returning. -/
inductive CtorError where
  | ConstructorFailedException : CtorError
  | assertionFailed : CtorError
  deriving DecidableEq, Repr

/-- State at the end of a constructor body. -/
structure CtorResult where
  /-- Resources held by the process. -/
  held : Resources
  /-- Value of the member `m_Handle`. -/
  m_Handle : HANDLE
  /-- The exception thrown, if any. -/
  thrown : Option CtorError
  deriving DecidableEq, Repr

/-- Whether `WaitForSingleObject( h, INFINITE )` returns: at once with
`WAIT_FAILED` on `NULL` and on a value that is not a handle held by the process;
on a held handle exactly when its object is signalled (`signalled` gives the
state of the objects, which nobody else changes during the wait). -/
def waitForHandleReturns (signalled : HANDLE → Bool) (h : HANDLE) (held : Resources) : Bool :=
  if h = 0 then true
  else if Resource.handle h ∈ held then signalled h
  else true

/-- Member function `Thread::End`: with `wait` it waits on `m_Handle` for ever,
otherwise it calls `TerminateThread`; neither changes the resources held.
`none`: the call never returns. -/
def Thread_End (signalled : HANDLE → Bool) (wait : Bool) (m_Handle : HANDLE)
    (held : Resources) : Option Resources :=
  if wait then
    if waitForHandleReturns signalled m_Handle held then some held else none
  else some held

/-- Destructor `Thread::~Thread`: `End()`, then `CloseHandle( m_Handle )`.
`none`: the destructor never returns. -/
def Thread_dtor (signalled : HANDLE → Bool) (m_Handle : HANDLE) (held : Resources) :
    Option Resources :=
  (Thread_End signalled true m_Handle held).map (CloseHandle m_Handle)

/-- Body of `ActivatedThread::ActivatedThread()`. `m_Handle0` is the content of
the member `m_Handle`, which `Thread::Thread()` leaves unassigned; `cs` is the
address of `m_ContextCriticalSection`; `hEvent` and `hThread` are what
`CreateEvent` and `_beginthreadex` return. -/
def ActivatedThread_ctor (m_Handle0 : HANDLE) (cs : Nat) (hEvent hThread : HANDLE)
    (held : Resources) : CtorResult :=
  let held1 := InitializeCriticalSection cs held
  let held2 := CreateEvent hEvent held1
  if hEvent = 0 then
    { held := DeleteCriticalSection cs held2, m_Handle := m_Handle0,
      thrown := some CtorError.ConstructorFailedException }
  else
    let held3 := beginthreadex hThread held2
    if hThread = 0 then
      { held := DeleteCriticalSection cs (CloseHandle hEvent held3), m_Handle := hThread,
        thrown := some CtorError.ConstructorFailedException }
    else
      { held := held3, m_Handle := hThread, thrown := none }

/-- Body of `PeriodicThread::PeriodicThread( period, pContext )`. `NDEBUG` tells
whether `assert` is compiled out; the other parameters are as for
`ActivatedThread_ctor`. -/
def PeriodicThread_ctor (NDEBUG : Bool) (period : Int) (m_Handle0 : HANDLE)
    (hEvent hThread : HANDLE) (held : Resources) : CtorResult :=
  if !NDEBUG && !PeriodicThread.precondition period then
    { held := held, m_Handle := m_Handle0, thrown := some CtorError.assertionFailed }
  else
    let held1 := CreateEvent hEvent held
    if hEvent = 0 then
      { held := held1, m_Handle := m_Handle0,
        thrown := some CtorError.ConstructorFailedException }
    else
      let held2 := beginthreadex hThread held1
      if hThread = 0 then
        { held := CloseHandle hEvent held2, m_Handle := hThread,
          thrown := some CtorError.ConstructorFailedException }
      else
        { held := held2, m_Handle := hThread, thrown := none }

/-- A constructor call as seen by the caller: when the body throws, the
complete base-class subobject is destroyed by `Thread::~Thread` before the
exception reaches the caller. A failed assertion aborts instead. `none`: the
call never comes back to the caller. -/
def construct (signalled : HANDLE → Bool) (r : CtorResult) : Option CtorResult :=
  match r.thrown with
  | some CtorError.ConstructorFailedException =>
    (Thread_dtor signalled r.m_Handle r.held).map (fun held1 => { r with held := held1 })
  | _ => some r

/-! ## Theorems: machine integers -/

theorem toDWORD_cast (z : Int) : ((toDWORD z : Nat) : Int) = z % 4294967296 := by
  unfold toDWORD; omega

theorem toDWORD_lt (z : Int) : toDWORD z < 4294967296 := by
  unfold toDWORD; omega

theorem toDWORD_of_lt (n : Nat) (h : n < 4294967296) : toDWORD (n : Int) = n := by
  unfold toDWORD; omega

theorem toLong_toDWORD (z : Int) (h1 : -2147483648 ≤ z) (h2 : z < 2147483648) :
    toLong (toDWORD z) = z := by
  unfold toLong toDWORD; split_ifs <;> omega

theorem toDWORD_add_sub (a b c : Int) :
    toDWORD (((toDWORD a : Nat) : Int) + b - ((toDWORD c : Nat) : Int)) = toDWORD (a + b - c) := by
  unfold toDWORD; omega

theorem toDWORD_eq_iff (a b : Int) : toDWORD a = toDWORD b ↔ a % 4294967296 = b % 4294967296 := by
  unfold toDWORD; omega

/-! ## Theorems: ActivatedThread -/

namespace ActivatedThread

variable {σ : Type}

theorem exited_of_done (t : ActivatedThread σ) (h : t.done = true) : t.exited = true := by
  simp [exited, h]

theorem step_of_exited (Main : σ → Ptr → σ × Bool) (signal : Nat) (t : ActivatedThread σ)
    (h : t.exited = true) : ThreadMain_step Main signal t = t := by
  simp [ThreadMain_step, h]

theorem step_blocked (Main : σ → Ptr → σ × Bool) (t : ActivatedThread σ)
    (h : t.m_ActivationEvent = false) : ThreadMain_step Main WAIT_OBJECT_0 t = t := by
  simp [ThreadMain_step, waitReturns, h]

theorem iterate_step_fixed (Main : σ → Ptr → σ × Bool) (signal : Nat) (t : ActivatedThread σ)
    (h : ThreadMain_step Main signal t = t) (n : Nat) :
    (ThreadMain_step Main signal)^[n] t = t := by
  induction n with
  | zero => rfl
  | succ k ih => rw [Function.iterate_succ_apply, h, ih]

/-- The pass that consumes a context which is not the exit command. -/
theorem body_consume (Main : σ → Ptr → σ × Bool) (t : ActivatedThread σ)
    (h : t.m_pContext ≠ Ptr.exitCommand) :
    ThreadMain_body Main WAIT_OBJECT_0 t =
      { t with m_pContext := Ptr.null, m_ActivationEvent := false,
               user := (Main t.user t.m_pContext).1, done := (Main t.user t.m_pContext).2,
               calls := t.calls ++ [t.m_pContext] } := by
  simp [ThreadMain_body, ThreadMain_switch, WAIT_OBJECT_0, WAIT_ABANDONED, GetContext,
    ResetEvent, SetContext, h]

/-- The pass that consumes the exit command. -/
theorem body_exit (Main : σ → Ptr → σ × Bool) (t : ActivatedThread σ)
    (h : t.m_pContext = Ptr.exitCommand) :
    ThreadMain_body Main WAIT_OBJECT_0 t =
      { t with m_pContext := Ptr.null, m_ActivationEvent := false, done := true } := by
  simp [ThreadMain_body, ThreadMain_switch, WAIT_OBJECT_0, WAIT_ABANDONED, GetContext,
    ResetEvent, SetContext, h]

/-- A pass whose wait did not report "signalled" leaves the loop and touches
nothing else. -/
theorem body_abnormal (Main : σ → Ptr → σ × Bool) (t : ActivatedThread σ) (signal : Nat)
    (h : signal ≠ WAIT_OBJECT_0) :
    ThreadMain_body Main signal t = { t with done := true } := by
  unfold ThreadMain_body ThreadMain_switch
  split_ifs <;> simp_all

/-- Waking a waiting worker right after `Activate(C)`, `C` not the exit command. -/
theorem step_activate (Main : σ → Ptr → σ × Bool) (t : ActivatedThread σ) (C : Ptr)
    (hwait : t.waiting = true) (hC : C ≠ Ptr.exitCommand) :
    ThreadMain_step Main WAIT_OBJECT_0 (Activate C t) =
      { t with m_pContext := Ptr.null, m_ActivationEvent := false,
               user := (Main t.user C).1, done := (Main t.user C).2,
               calls := t.calls ++ [C] } := by
  have hd : t.done = false ∧ t.terminated = false := by
    simpa [waiting, exited] using hwait
  have hb := body_consume Main (Activate C t) (by simpa [Activate, SetEvent, SetContext] using hC)
  simp only [ThreadMain_step]
  simp [exited, waitReturns, Activate, SetEvent, SetContext, hd.1, hd.2] at hb ⊢
  exact hb

/-- C1. With the worker waiting, `Activate(A)` followed by `Activate(B)` (for
every `A`, and `B` not the exit command) and then the worker's wake-up gives
exactly one more invocation of `Main`, with `B`; afterwards the slot is empty and the event is
not signalled, further wake-up attempts change nothing, and, when `Main` asked
to continue, the next `Activate(C)` is what wakes the worker again. -/
theorem activate_twice_last_write_wins (Main : σ → Ptr → σ × Bool) (t : ActivatedThread σ)
    (A B : Ptr) (hwait : t.waiting = true) (hB : B ≠ Ptr.exitCommand) :
    (ThreadMain_step Main WAIT_OBJECT_0 (Activate B (Activate A t))).calls = t.calls ++ [B] ∧
    (ThreadMain_step Main WAIT_OBJECT_0 (Activate B (Activate A t))).user = (Main t.user B).1 ∧
    (ThreadMain_step Main WAIT_OBJECT_0 (Activate B (Activate A t))).done = (Main t.user B).2 ∧
    (ThreadMain_step Main WAIT_OBJECT_0 (Activate B (Activate A t))).m_pContext = Ptr.null ∧
    (ThreadMain_step Main WAIT_OBJECT_0 (Activate B (Activate A t))).m_ActivationEvent = false ∧
    (∀ n : Nat, (ThreadMain_step Main WAIT_OBJECT_0)^[n]
        (ThreadMain_step Main WAIT_OBJECT_0 (Activate B (Activate A t))) =
        ThreadMain_step Main WAIT_OBJECT_0 (Activate B (Activate A t))) ∧
    (∀ C : Ptr, (Main t.user B).2 = false → C ≠ Ptr.exitCommand →
      (ThreadMain_step Main WAIT_OBJECT_0
        (Activate C (ThreadMain_step Main WAIT_OBJECT_0 (Activate B (Activate A t))))).calls =
        t.calls ++ [B, C]) := by
  have hd : t.done = false ∧ t.terminated = false := by
    simpa [waiting, exited] using hwait
  have hwA : (Activate A t).waiting = true := by
    simpa [Activate, SetEvent, SetContext, waiting, exited] using hwait
  have hstep := step_activate Main (Activate A t) B hwA hB
  refine ⟨?_, ?_, ?_, ?_, ?_, ?_, ?_⟩
  · rw [hstep]; rfl
  · rw [hstep]; rfl
  · rw [hstep]; rfl
  · rw [hstep]
  · rw [hstep]
  · intro n
    exact iterate_step_fixed Main _ _ (step_blocked Main _ (by rw [hstep])) n
  · intro C hcont hC
    have hw' : (ThreadMain_step Main WAIT_OBJECT_0 (Activate B (Activate A t))).waiting = true := by
      rw [hstep]
      simp [waiting, exited, Activate, SetEvent, SetContext, hcont, hd.2]
    rw [step_activate Main _ C hw' hC, hstep]
    simp [Activate, SetEvent, SetContext]

/-- Instance of C1: contexts at addresses `1` and `2` sent to the example worker. -/
theorem activate_twice_last_write_wins_witness :
    exampleWaiting.waiting = true ∧ Ptr.object 2 ≠ Ptr.exitCommand ∧
    (ThreadMain_step exampleMain WAIT_OBJECT_0
      (Activate (Ptr.object 2) (Activate (Ptr.object 1) exampleWaiting))).calls = [Ptr.object 2] :=
  ⟨by decide, by decide,
    (activate_twice_last_write_wins exampleMain exampleWaiting (Ptr.object 1) (Ptr.object 2)
      (by decide) (by decide)).1⟩

/-- C2. For a pass of the dispatch loop whose wait returned one of the
documented results: the loop is left after the pass exactly when (a) the
consumed context is the exit command, or (b) the wait result is abandoned,
timeout or failed, or (c) `Main` was invoked and returned `true`; in cases (a)
and (b) `Main` is not invoked, in every other case it is invoked exactly once,
with the consumed context. -/
theorem loop_terminates_iff (Main : σ → Ptr → σ × Bool) (t : ActivatedThread σ)
    (signal : Nat) (hdoc : documentedWaitResult signal) :
    ((ThreadMain_body Main signal t).done = true ↔
      (signal = WAIT_OBJECT_0 ∧ t.GetContext = Ptr.exitCommand) ∨
      abnormalWaitResult signal ∨
      ((ThreadMain_body Main signal t).calls = t.calls ++ [t.GetContext] ∧
        (Main t.user t.GetContext).2 = true)) ∧
    ((signal = WAIT_OBJECT_0 ∧ t.GetContext = Ptr.exitCommand) ∨ abnormalWaitResult signal →
      (ThreadMain_body Main signal t).calls = t.calls ∧
      (ThreadMain_body Main signal t).user = t.user) ∧
    (¬ ((signal = WAIT_OBJECT_0 ∧ t.GetContext = Ptr.exitCommand) ∨ abnormalWaitResult signal) →
      (ThreadMain_body Main signal t).calls = t.calls ++ [t.GetContext] ∧
      (ThreadMain_body Main signal t).user = (Main t.user t.GetContext).1 ∧
      (ThreadMain_body Main signal t).done = (Main t.user t.GetContext).2) := by
  have hne : ∀ l : List Ptr, ∀ p : Ptr, l ≠ l ++ [p] := by
    intro l p h
    have := congrArg List.length h
    simp at this
  rcases hdoc with h | h | h | h
  · have hb := body_abnormal Main t signal (by rw [h]; decide)
    have ha : abnormalWaitResult signal := Or.inl h
    rw [hb]
    simp [ha]
  · subst h
    by_cases hc : t.m_pContext = Ptr.exitCommand
    · rw [body_exit Main t hc]
      simp [GetContext, hc]
    · rw [body_consume Main t hc]
      have hn : ¬ abnormalWaitResult WAIT_OBJECT_0 := by
        simp [abnormalWaitResult, WAIT_OBJECT_0, WAIT_ABANDONED, WAIT_TIMEOUT, WAIT_FAILED]
      simp [GetContext, hc, hn]
  · have hb := body_abnormal Main t signal (by rw [h]; decide)
    have ha : abnormalWaitResult signal := Or.inr (Or.inl h)
    rw [hb]
    simp [ha]
  · have hb := body_abnormal Main t signal (by rw [h]; decide)
    have ha : abnormalWaitResult signal := Or.inr (Or.inr h)
    rw [hb]
    simp [ha]

/-- Instance of C2: the example worker consumes the context at address `7`. -/
theorem loop_terminates_iff_witness :
    documentedWaitResult WAIT_OBJECT_0 ∧
    ((ThreadMain_body exampleMain WAIT_OBJECT_0 (Activate (Ptr.object 7) exampleWaiting)).done = true ↔
      (WAIT_OBJECT_0 = WAIT_OBJECT_0 ∧
        (Activate (Ptr.object 7) exampleWaiting).GetContext = Ptr.exitCommand) ∨
      abnormalWaitResult WAIT_OBJECT_0 ∨
      ((ThreadMain_body exampleMain WAIT_OBJECT_0 (Activate (Ptr.object 7) exampleWaiting)).calls =
          (Activate (Ptr.object 7) exampleWaiting).calls ++
            [(Activate (Ptr.object 7) exampleWaiting).GetContext] ∧
        (exampleMain (Activate (Ptr.object 7) exampleWaiting).user
          (Activate (Ptr.object 7) exampleWaiting).GetContext).2 = true)) :=
  ⟨Or.inr (Or.inl rfl),
    (loop_terminates_iff exampleMain (Activate (Ptr.object 7) exampleWaiting) WAIT_OBJECT_0
      (Or.inr (Or.inl rfl))).1⟩

/-- Every operation leaves an exited worker exited, returns, and causes no
invocation of `Main`. -/
theorem exec_of_exited (Main : σ → Ptr → σ × Bool) (t : ActivatedThread σ) (op : Op)
    (h : t.exited = true) :
    ∃ t1, exec Main t op = some t1 ∧ t1.exited = true ∧ t1.calls = t.calls ∧
      t1.user = t.user ∧ t1.done = t.done ∧ t1.terminated = t.terminated := by
  cases op with
  | activate p =>
    exact ⟨Activate p t, rfl, by simpa [Activate, SetEvent, SetContext, exited] using h,
      rfl, rfl, rfl, rfl⟩
  | stop wait =>
    cases wait with
    | true =>
      have he : (Activate Ptr.exitCommand t).exited = true := by
        simpa [Activate, SetEvent, SetContext, exited] using h
      refine ⟨Activate Ptr.exitCommand t, ?_, he, rfl, rfl, rfl, rfl⟩
      simp [exec, End, joinThread, he]
    | false =>
      refine ⟨t, ?_, h, rfl, rfl, rfl, rfl⟩
      simp [exec, End, TerminateThread, h]
  | wake signal =>
    refine ⟨t, ?_, h, rfl, rfl, rfl, rfl⟩
    simp [exec, step_of_exited Main signal t h]

theorem run_of_exited (Main : σ → Ptr → σ × Bool) (ops : List Op) :
    ∀ t : ActivatedThread σ, t.exited = true →
      ∃ t1, run Main t ops = some t1 ∧ t1.exited = true ∧ t1.calls = t.calls ∧
        t1.user = t.user ∧ t1.done = t.done ∧ t1.terminated = t.terminated := by
  induction ops with
  | nil => intro t h; exact ⟨t, rfl, h, rfl, rfl, rfl, rfl⟩
  | cons op ops ih =>
    intro t h
    obtain ⟨t1, h1, he1, hc1, hu1, hd1, ht1⟩ := exec_of_exited Main t op h
    obtain ⟨t2, h2, he2, hc2, hu2, hd2, ht2⟩ := ih t1 he1
    refine ⟨t2, ?_, he2, hc2.trans hc1, hu2.trans hu1, hd2.trans hd1, ht2.trans ht1⟩
    simp [run, h1, h2]

/-- When `End( true )` returns, the worker has exited. -/
theorem End_true_exited (Main : σ → Ptr → σ × Bool) (t0 t : ActivatedThread σ)
    (h : End Main true t0 = some t) : t.exited = true := by
  simp only [End, joinThread, if_true] at h
  split_ifs at h with h1 h2
  · cases h; exact h1
  · cases h; exact h2

/-- C3. Once `End( true )` has returned, every later sequence of `Activate`
and `End` calls (any order, any context, either value of `wait`), interleaved
with any scheduling attempts of the worker, returns, invokes `Main` no more,
and leaves the worker exited; in particular a repeated `End( true )` returns
with the worker still exited. -/
theorem stopped_is_absorbing (Main : σ → Ptr → σ × Bool) (t0 t : ActivatedThread σ)
    (hstop : End Main true t0 = some t) :
    t.exited = true ∧
    (∀ ops : List Op, ∃ t1, run Main t ops = some t1 ∧ t1.exited = true ∧
      t1.calls = t.calls ∧ t1.user = t.user) ∧
    (∃ t1, End Main true t = some t1 ∧ t1.exited = true ∧ t1.calls = t.calls ∧
      t1.user = t.user) := by
  have he := End_true_exited Main t0 t hstop
  refine ⟨he, ?_, ?_⟩
  · intro ops
    obtain ⟨t1, h1, he1, hc1, hu1, _, _⟩ := run_of_exited Main ops t he
    exact ⟨t1, h1, he1, hc1, hu1⟩
  · obtain ⟨t1, h1, he1, hc1, hu1, _, _⟩ := exec_of_exited Main t (Op.stop true) he
    exact ⟨t1, h1, he1, hc1, hu1⟩

/-- Instance of C3: `End( true )` on the example worker. -/
theorem stopped_is_absorbing_witness :
    End exampleMain true exampleWaiting = some exampleStopped ∧ exampleStopped.exited = true :=
  ⟨rfl, (stopped_is_absorbing exampleMain exampleWaiting exampleStopped rfl).1⟩

/-- C11. The exit command stored by `End( true )` lies in the same slot as any
other context: for every `X` other than the exit command, `Activate(X)` after
the exit command was stored and before the worker consumes the mailbox makes
the worker's next pass invoke `Main` with `X`, exactly once; and when that
invocation returns `false` the loop is not left, the worker waits again with
the slot empty and the event not signalled, further wake-up attempts change
nothing, and the owner's wait for the thread never ends: the stop request is
lost. -/
theorem exit_command_overwritten (Main : σ → Ptr → σ × Bool) (t : ActivatedThread σ) (X : Ptr)
    (hwait : t.waiting = true) (hX : X ≠ Ptr.exitCommand) :
    (Activate Ptr.exitCommand t).m_pContext = Ptr.exitCommand ∧
    (ThreadMain_step Main WAIT_OBJECT_0 (Activate X (Activate Ptr.exitCommand t))).calls =
      t.calls ++ [X] ∧
    (ThreadMain_step Main WAIT_OBJECT_0 (Activate X (Activate Ptr.exitCommand t))).user =
      (Main t.user X).1 ∧
    ((Main t.user X).2 = false →
      (ThreadMain_step Main WAIT_OBJECT_0 (Activate X (Activate Ptr.exitCommand t))).done = false ∧
      (ThreadMain_step Main WAIT_OBJECT_0 (Activate X (Activate Ptr.exitCommand t))).waiting = true ∧
      (ThreadMain_step Main WAIT_OBJECT_0 (Activate X (Activate Ptr.exitCommand t))).m_pContext =
        Ptr.null ∧
      (ThreadMain_step Main WAIT_OBJECT_0
        (Activate X (Activate Ptr.exitCommand t))).m_ActivationEvent = false ∧
      (∀ n : Nat, (ThreadMain_step Main WAIT_OBJECT_0)^[n]
        (ThreadMain_step Main WAIT_OBJECT_0 (Activate X (Activate Ptr.exitCommand t))) =
        ThreadMain_step Main WAIT_OBJECT_0 (Activate X (Activate Ptr.exitCommand t))) ∧
      joinThread Main
        (ThreadMain_step Main WAIT_OBJECT_0 (Activate X (Activate Ptr.exitCommand t))) = none) := by
  have hd : t.done = false ∧ t.terminated = false := by
    simpa [waiting, exited] using hwait
  have hwE : (Activate Ptr.exitCommand t).waiting = true := by
    simpa [Activate, SetEvent, SetContext, waiting, exited] using hwait
  have hstep := step_activate Main (Activate Ptr.exitCommand t) X hwE hX
  refine ⟨rfl, ?_, ?_, ?_⟩
  · rw [hstep]; rfl
  · rw [hstep]; rfl
  · intro hcont
    have hblocked := step_blocked Main
      (ThreadMain_step Main WAIT_OBJECT_0 (Activate X (Activate Ptr.exitCommand t)))
      (by rw [hstep])
    have hw : (ThreadMain_step Main WAIT_OBJECT_0
        (Activate X (Activate Ptr.exitCommand t))).waiting = true := by
      rw [hstep]
      simp [waiting, exited, Activate, SetEvent, SetContext, hcont, hd.2]
    have hex : (ThreadMain_step Main WAIT_OBJECT_0
        (Activate X (Activate Ptr.exitCommand t))).exited = false := by
      simpa [waiting] using hw
    refine ⟨?_, hw, ?_, ?_, ?_, ?_⟩
    · rw [hstep]
      simpa [Activate, SetEvent, SetContext] using hcont
    · rw [hstep]
    · rw [hstep]
    · intro n
      exact iterate_step_fixed Main _ _ hblocked n
    · simp [joinThread, hblocked, hex]

/-- Instance of C11: the context at address `1` sent to the example worker
after the exit command. -/
theorem exit_command_overwritten_witness :
    exampleWaiting.waiting = true ∧ Ptr.object 1 ≠ Ptr.exitCommand ∧
    (ThreadMain_step exampleMain WAIT_OBJECT_0
      (Activate (Ptr.object 1) (Activate Ptr.exitCommand exampleWaiting))).calls =
      exampleWaiting.calls ++ [Ptr.object 1] :=
  ⟨by decide, by decide,
    (exit_command_overwritten exampleMain exampleWaiting (Ptr.object 1) (by decide)
      (by decide)).2.1⟩

end ActivatedThread

/-! ## Theorems: PeriodicThread -/

namespace PeriodicThread

variable {σ : Type}

theorem schedule_fields (currentTime : Nat) (t : PeriodicThread σ) :
    (ThreadMain_schedule currentTime t).pContext = t.pContext ∧
    (ThreadMain_schedule currentTime t).user = t.user ∧
    (ThreadMain_schedule currentTime t).calls = t.calls ∧
    (ThreadMain_schedule currentTime t).done = t.done ∧
    (ThreadMain_schedule currentTime t).m_SyncPeriod = t.m_SyncPeriod := by
  unfold ThreadMain_schedule
  split_ifs <;> simp

theorem switch_timeout (Main : σ → Ptr → σ × Bool) (t : PeriodicThread σ) :
    ThreadMain_switch Main WAIT_TIMEOUT t =
      { t with user := (Main t.user t.pContext).1, done := (Main t.user t.pContext).2,
               calls := t.calls ++ [t.pContext] } := by
  simp [ThreadMain_switch, WAIT_TIMEOUT, WAIT_ABANDONED, WAIT_OBJECT_0]

theorem switch_other (Main : σ → Ptr → σ × Bool) (signal : Nat) (t : PeriodicThread σ)
    (h : signal ≠ WAIT_TIMEOUT) : ThreadMain_switch Main signal t = { t with done := true } := by
  unfold ThreadMain_switch
  split_ifs <;> simp_all

theorem switch_fields (Main : σ → Ptr → σ × Bool) (signal : Nat) (t : PeriodicThread σ) :
    (ThreadMain_switch Main signal t).pContext = t.pContext ∧
    (ThreadMain_switch Main signal t).m_SyncPeriod = t.m_SyncPeriod ∧
    (ThreadMain_switch Main signal t).nextUpdateTime = t.nextUpdateTime := by
  unfold ThreadMain_switch
  split_ifs <;> simp

theorem body_pContext (Main : σ → Ptr → σ × Bool) (currentTime signal : Nat)
    (t : PeriodicThread σ) :
    (ThreadMain_body Main currentTime signal t).pContext = t.pContext := by
  unfold ThreadMain_body
  rw [(switch_fields Main signal _).1, (schedule_fields currentTime t).1]

theorem body_m_SyncPeriod (Main : σ → Ptr → σ × Bool) (currentTime signal : Nat)
    (t : PeriodicThread σ) :
    (ThreadMain_body Main currentTime signal t).m_SyncPeriod = t.m_SyncPeriod := by
  unfold ThreadMain_body
  rw [(switch_fields Main signal _).2.1, (schedule_fields currentTime t).2.2.2.2]

theorem loop_pContext (Main : σ → Ptr → σ × Bool) (history : List (Nat × Nat)) :
    ∀ t : PeriodicThread σ, (ThreadMain_loop Main history t).pContext = t.pContext := by
  induction history with
  | nil => intro t; rfl
  | cons e rest ih =>
    intro t
    obtain ⟨c, sg⟩ := e
    simp only [ThreadMain_loop]
    split_ifs
    · rfl
    · rw [ih, body_pContext]

theorem body_timeout (Main : σ → Ptr → σ × Bool) (currentTime : Nat) (t : PeriodicThread σ) :
    (ThreadMain_body Main currentTime WAIT_TIMEOUT t).calls = t.calls ++ [t.pContext] ∧
    (ThreadMain_body Main currentTime WAIT_TIMEOUT t).user = (Main t.user t.pContext).1 ∧
    (ThreadMain_body Main currentTime WAIT_TIMEOUT t).done = (Main t.user t.pContext).2 := by
  obtain ⟨h1, h2, h3, _, _⟩ := schedule_fields currentTime t
  unfold ThreadMain_body
  rw [switch_timeout]
  simp [h1, h2, h3]

theorem body_other (Main : σ → Ptr → σ × Bool) (currentTime signal : Nat)
    (t : PeriodicThread σ) (h : signal ≠ WAIT_TIMEOUT) :
    (ThreadMain_body Main currentTime signal t).calls = t.calls ∧
    (ThreadMain_body Main currentTime signal t).user = t.user ∧
    (ThreadMain_body Main currentTime signal t).done = true := by
  obtain ⟨_, h2, h3, _, _⟩ := schedule_fields currentTime t
  unfold ThreadMain_body
  rw [switch_other Main signal _ h]
  simp [h2, h3]

/-- C4. In every pass of the dispatch loop of a `PeriodicThread` constructed
with context `pContext`, after any earlier passes and whatever `Main` returned
in them: if the wait ends by timeout, `Main` is invoked exactly once, with
`pContext`, and the loop is left exactly when it returns `true`; if the wait
reports the event signalled (the stop request), abandoned or failed, the loop
is left and `Main` is not invoked; so it is in the pass that follows the
`SetEvent` of `End( true )`. -/
theorem periodic_pass (Main : σ → Ptr → σ × Bool) (period : Int) (pContext : Ptr) (user : σ)
    (now : Nat) (history : List (Nat × Nat)) (currentTime : Nat) :
    ((ThreadMain_body Main currentTime WAIT_TIMEOUT
        (ThreadMain_loop Main history (start period pContext user now))).calls =
      (ThreadMain_loop Main history (start period pContext user now)).calls ++ [pContext] ∧
     ((ThreadMain_body Main currentTime WAIT_TIMEOUT
        (ThreadMain_loop Main history (start period pContext user now))).done = true ↔
      (Main (ThreadMain_loop Main history (start period pContext user now)).user
        pContext).2 = true)) ∧
    (∀ signal : Nat,
      signal = WAIT_OBJECT_0 ∨ signal = WAIT_ABANDONED ∨ signal = WAIT_FAILED →
      (ThreadMain_body Main currentTime signal
        (ThreadMain_loop Main history (start period pContext user now))).calls =
        (ThreadMain_loop Main history (start period pContext user now)).calls ∧
      (ThreadMain_body Main currentTime signal
        (ThreadMain_loop Main history (start period pContext user now))).user =
        (ThreadMain_loop Main history (start period pContext user now)).user ∧
      (ThreadMain_body Main currentTime signal
        (ThreadMain_loop Main history (start period pContext user now))).done = true) ∧
    ((ThreadMain_body Main currentTime WAIT_OBJECT_0
        (SetEvent (ThreadMain_loop Main history (start period pContext user now)))).calls =
        (ThreadMain_loop Main history (start period pContext user now)).calls ∧
      (ThreadMain_body Main currentTime WAIT_OBJECT_0
        (SetEvent (ThreadMain_loop Main history (start period pContext user now)))).done = true) := by
  have hp : (ThreadMain_loop Main history (start period pContext user now)).pContext = pContext := by
    rw [loop_pContext]; rfl
  refine ⟨?_, ?_, ?_⟩
  · obtain ⟨h1, _, h3⟩ := body_timeout Main currentTime
      (ThreadMain_loop Main history (start period pContext user now))
    rw [hp] at h1 h3
    exact ⟨h1, by rw [h3]⟩
  · intro signal hs
    apply body_other
    rcases hs with h | h | h <;> rw [h] <;> decide
  · obtain ⟨h1, _, h3⟩ := body_other Main currentTime WAIT_OBJECT_0
      (SetEvent (ThreadMain_loop Main history (start period pContext user now))) (by decide)
    exact ⟨h1, h3⟩

/-- The signed 32-bit tick difference computed by the loop is the true
difference whenever the latter fits in a `long`. -/
theorem timeTillNextUpdate_eq (t : PeriodicThread σ) (prev now : Int)
    (hfin : noPeriodicWake t.m_SyncPeriod = false) (hnext : t.nextUpdateTime = toDWORD prev)
    (hlo : -2147483648 ≤ prev + t.m_SyncPeriod - now)
    (hhi : prev + t.m_SyncPeriod - now < 2147483648) :
    timeTillNextUpdate (toDWORD now) t = max (prev + t.m_SyncPeriod - now) 0 := by
  unfold timeTillNextUpdate
  rw [hfin, hnext, toDWORD_add_sub, toLong_toDWORD _ hlo hhi]
  simp

theorem timeTillNextUpdate_nonneg (t : PeriodicThread σ) (currentTime : Nat)
    (hfin : noPeriodicWake t.m_SyncPeriod = false) : 0 ≤ timeTillNextUpdate currentTime t := by
  unfold timeTillNextUpdate
  rw [hfin]
  simp

theorem schedule_nextUpdateTime (t : PeriodicThread σ) (currentTime : Nat)
    (hfin : noPeriodicWake t.m_SyncPeriod = false) :
    (ThreadMain_schedule currentTime t).nextUpdateTime =
      toDWORD ((currentTime : Int) + timeTillNextUpdate currentTime t) := by
  unfold ThreadMain_schedule
  rw [hfin]
  simp

theorem body_nextUpdateTime (Main : σ → Ptr → σ × Bool) (t : PeriodicThread σ)
    (currentTime signal : Nat) (hfin : noPeriodicWake t.m_SyncPeriod = false) :
    (ThreadMain_body Main currentTime signal t).nextUpdateTime =
      toDWORD ((currentTime : Int) + timeTillNextUpdate currentTime t) := by
  unfold ThreadMain_body
  rw [(switch_fields Main signal _).2.2, schedule_nextUpdateTime t currentTime hfin]

/-- C5, as stated, fails: with the previous scheduled wake at tick `0`, period
`100` and the clock reading `2147483848` (later than the next wake `100`), the
timeout is `2147483548`, not `0`: the 32-bit signed difference has wrapped. -/
theorem timeTillNextUpdate_wraps :
    (((start 100 Ptr.null () 0).nextUpdateTime : Int) + (start 100 Ptr.null () 0).m_SyncPeriod
      < 2147483848) ∧
    timeTillNextUpdate 2147483848 (start 100 Ptr.null () 0) = 2147483548 ∧
    timeTillNextUpdate 2147483848 (start 100 Ptr.null () 0) ≠
      max ((((start 100 Ptr.null () 0).nextUpdateTime : Int) +
        (start 100 Ptr.null () 0).m_SyncPeriod) - 2147483848) 0 := by
  decide

/-- C5, amended. With a finite period the timeout is never negative; and when
the clock reading `now` and the next wake `prev + P` (`prev` the previous
scheduled wake, held modulo `2^32` in `nextUpdateTime`) differ by an amount that
fits the 32-bit signed range, the timeout is `max (prev + P - now) 0`, hence
exactly `0` when `now` is later than the next wake. -/
theorem timeTillNextUpdate_clamped (t : PeriodicThread σ) (prev now : Int)
    (hfin : noPeriodicWake t.m_SyncPeriod = false) (hnext : t.nextUpdateTime = toDWORD prev)
    (hlo : -2147483648 ≤ prev + t.m_SyncPeriod - now)
    (hhi : prev + t.m_SyncPeriod - now < 2147483648) :
    timeTillNextUpdate (toDWORD now) t = max (prev + t.m_SyncPeriod - now) 0 ∧
    (∀ currentTime : Nat, 0 ≤ timeTillNextUpdate currentTime t) ∧
    (prev + t.m_SyncPeriod < now → timeTillNextUpdate (toDWORD now) t = 0 ∧
      waitTimeout (toDWORD now) t = 0) := by
  have h := timeTillNextUpdate_eq t prev now hfin hnext hlo hhi
  refine ⟨h, fun c => timeTillNextUpdate_nonneg t c hfin, ?_⟩
  intro hlate
  have h0 : timeTillNextUpdate (toDWORD now) t = 0 := by
    rw [h]; exact max_eq_right (by omega)
  refine ⟨h0, ?_⟩
  unfold waitTimeout
  rw [h0]
  decide

/-- Instance of C5, amended: scheduled wake `0`, period `100`, clock `250`. -/
theorem timeTillNextUpdate_clamped_witness :
    noPeriodicWake (start 100 Ptr.null () 0).m_SyncPeriod = false ∧
    timeTillNextUpdate (toDWORD 250) (start 100 Ptr.null () 0) = max ((0 : Int) + 100 - 250) 0 :=
  ⟨by decide,
    (timeTillNextUpdate_clamped (start 100 Ptr.null () 0) 0 250 (by decide) (by decide)
      (by decide) (by decide)).1⟩

/-- C6, as stated, fails: with the previous scheduled wake at tick `0`, period
`100` and the clock reading `250`, the pass sets the scheduled wake to `250`,
not to `0 + 100`. -/
theorem nextUpdateTime_not_advanced_by_period :
    (ThreadMain_body countingMain 250 WAIT_TIMEOUT (start 100 Ptr.null 0 0)).nextUpdateTime = 250 ∧
    (ThreadMain_body countingMain 250 WAIT_TIMEOUT (start 100 Ptr.null 0 0)).nextUpdateTime ≠
      (start 100 Ptr.null 0 0).nextUpdateTime + 100 := by
  decide

/-- C6, amended. With a finite period, whatever the wait result: a pass whose
clock reading `now` is not later than `prev + P` advances the scheduled wake by
exactly `P`; a pass whose clock reading is later than `prev + P` sets the
scheduled wake to the clock reading itself (tick values modulo `2^32`,
differences within the 32-bit signed range). -/
theorem nextUpdateTime_advance (Main : σ → Ptr → σ × Bool) (t : PeriodicThread σ)
    (prev now : Int) (signal : Nat)
    (hfin : noPeriodicWake t.m_SyncPeriod = false) (hnext : t.nextUpdateTime = toDWORD prev)
    (hlo : -2147483648 ≤ prev + t.m_SyncPeriod - now)
    (hhi : prev + t.m_SyncPeriod - now < 2147483648) :
    (now ≤ prev + t.m_SyncPeriod →
      (ThreadMain_body Main (toDWORD now) signal t).nextUpdateTime =
        toDWORD (prev + t.m_SyncPeriod)) ∧
    (prev + t.m_SyncPeriod < now →
      (ThreadMain_body Main (toDWORD now) signal t).nextUpdateTime = toDWORD now) := by
  have h := timeTillNextUpdate_eq t prev now hfin hnext hlo hhi
  rw [body_nextUpdateTime Main t (toDWORD now) signal hfin, h]
  constructor
  · intro hle
    rw [max_eq_left (by omega), toDWORD_eq_iff, toDWORD_cast]
    omega
  · intro hlt
    rw [max_eq_right (by omega), toDWORD_eq_iff, toDWORD_cast]
    omega

/-- Instance of C6, amended: scheduled wake `0`, period `100`, clock `40`. -/
theorem nextUpdateTime_advance_witness :
    noPeriodicWake (start 100 Ptr.null 0 0).m_SyncPeriod = false ∧
    ((40 : Int) ≤ 0 + (start 100 Ptr.null 0 0).m_SyncPeriod →
      (ThreadMain_body countingMain (toDWORD 40) WAIT_TIMEOUT (start 100 Ptr.null 0 0)).nextUpdateTime =
        toDWORD (0 + (start 100 Ptr.null 0 0).m_SyncPeriod)) :=
  ⟨by decide,
    (nextUpdateTime_advance countingMain (start 100 Ptr.null 0 0) 0 40 WAIT_TIMEOUT (by decide)
      (by decide) (by decide) (by decide)).1⟩

theorem noPeriodicWake_of_pos (period : Int) (h0 : 0 < period) (h1 : period < 2147483648) :
    noPeriodicWake period = false := by
  unfold noPeriodicWake toDWORD INFINITE
  simp
  omega

/-- A pass whose clock reading lies less than one period after the scheduled
wake advances the scheduled wake by exactly one period. -/
theorem body_negligible (Main : σ → Ptr → σ × Bool) (t : PeriodicThread σ) (c signal : Nat)
    (hP : t.m_SyncPeriod < 2147483648)
    (hneg : ((toDWORD ((c : Int) - (t.nextUpdateTime : Int)) : Nat) : Int) < t.m_SyncPeriod) :
    (ThreadMain_body Main c signal t).nextUpdateTime =
      toDWORD ((t.nextUpdateTime : Int) + t.m_SyncPeriod) := by
  have h0 : 0 < t.m_SyncPeriod := by omega
  have hfin := noPeriodicWake_of_pos t.m_SyncPeriod h0 hP
  have hX : toLong (toDWORD ((t.nextUpdateTime : Int) + t.m_SyncPeriod - (c : Int))) =
      t.m_SyncPeriod - ((toDWORD ((c : Int) - (t.nextUpdateTime : Int)) : Nat) : Int) := by
    unfold toLong toDWORD at *
    split_ifs <;> omega
  rw [body_nextUpdateTime Main t c signal hfin]
  unfold timeTillNextUpdate
  rw [hfin, hX]
  simp only [Bool.false_eq_true, if_false]
  rw [max_eq_left (by omega), toDWORD_eq_iff]
  unfold toDWORD
  omega

theorem timeoutRun_cons (Main : σ → Ptr → σ × Bool) (c : Nat) (rest : List Nat)
    (t : PeriodicThread σ) (hd : t.done = false) :
    timeoutRun Main (c :: rest) t = timeoutRun Main rest (ThreadMain_body Main c WAIT_TIMEOUT t) := by
  simp [timeoutRun, ThreadMain_loop, hd]

theorem timeoutRun_negligible (Main : σ → Ptr → σ × Bool) (P : Int) (hP : P < 2147483648)
    (hcont : ∀ u p, (Main u p).2 = false) (readings : List Nat) :
    ∀ t : PeriodicThread σ, t.m_SyncPeriod = P → t.done = false →
      t.nextUpdateTime < 4294967296 → negligible Main readings t →
      (timeoutRun Main readings t).nextUpdateTime =
        toDWORD ((t.nextUpdateTime : Int) + (readings.length : Int) * P) ∧
      (timeoutRun Main readings t).calls = t.calls ++ List.replicate readings.length t.pContext ∧
      (timeoutRun Main readings t).done = false := by
  induction readings with
  | nil =>
    intro t _ hd hlt _
    simp [timeoutRun, ThreadMain_loop, hd, toDWORD_of_lt _ hlt]
  | cons c rest ih =>
    intro t hp hd _ hneg
    obtain ⟨hc, hrest⟩ := hneg
    obtain ⟨h1, _, h3⟩ := body_timeout Main c t
    have hn := body_negligible Main t c WAIT_TIMEOUT (by rw [hp]; exact hP) hc
    have hd1 : (ThreadMain_body Main c WAIT_TIMEOUT t).done = false := by rw [h3, hcont]
    have hp1 : (ThreadMain_body Main c WAIT_TIMEOUT t).m_SyncPeriod = P := by
      rw [body_m_SyncPeriod, hp]
    have hlt1 : (ThreadMain_body Main c WAIT_TIMEOUT t).nextUpdateTime < 4294967296 := by
      rw [hn]; exact toDWORD_lt _
    obtain ⟨i1, i3, i4⟩ := ih _ hp1 hd1 hlt1 hrest
    rw [timeoutRun_cons Main c rest t hd]
    refine ⟨?_, ?_, i4⟩
    · rw [i1, hn, toDWORD_eq_iff, toDWORD_cast, hp]
      simp only [List.length_cons, Nat.cast_add, Nat.cast_one]
      have e : ((rest.length : Int) + 1) * P = (rest.length : Int) * P + P := by ring
      rw [e]
      omega
    · rw [i3, h1, body_pContext]
      simp [List.replicate_succ]

/-- C7. A `PeriodicThread` with period `P` started at clock time `t0`, whose
`Main` always returns `false` and takes negligible time (each clock reading at
the top of a pass lies at or after the scheduled wake and less than `P` after
it): after `N` passes ending by timeout the scheduled wake time is
`t0 + N * P` as a 32-bit tick value, `Main` has been invoked `N` times, the loop
is still running, and the drift of the scheduled wake against `t0 + N * P` is
`0`, whatever `N`. -/
theorem scheduled_wake_no_drift (Main : σ → Ptr → σ × Bool) (P : Int) (pContext : Ptr)
    (user : σ) (t0 : Nat) (readings : List Nat)
    (hP : P < 2147483648) (ht0 : t0 < 4294967296) (hcont : ∀ u p, (Main u p).2 = false)
    (hneg : negligible Main readings (start P pContext user t0)) :
    (timeoutRun Main readings (start P pContext user t0)).nextUpdateTime =
      toDWORD ((t0 : Int) + (readings.length : Int) * P) ∧
    (timeoutRun Main readings (start P pContext user t0)).calls =
      List.replicate readings.length pContext ∧
    (timeoutRun Main readings (start P pContext user t0)).done = false ∧
    toLong (toDWORD (((timeoutRun Main readings (start P pContext user t0)).nextUpdateTime : Int) -
      ((t0 : Int) + (readings.length : Int) * P))) = 0 := by
  obtain ⟨h1, h3, h4⟩ := timeoutRun_negligible Main P hP hcont readings
    (start P pContext user t0) rfl rfl ht0 hneg
  have hs : (start P pContext user t0).nextUpdateTime = t0 := rfl
  rw [hs] at h1
  refine ⟨h1, by simpa [start] using h3, h4, ?_⟩
  rw [h1]
  unfold toLong toDWORD
  split_ifs <;> omega

/-- Instance of C7: period `100`, start `0`, clock readings `3`, `105`, `200`. -/
theorem scheduled_wake_no_drift_witness :
    negligible countingMain [3, 105, 200] (start 100 Ptr.null 0 0) ∧
    (timeoutRun countingMain [3, 105, 200] (start 100 Ptr.null 0 0)).nextUpdateTime =
      toDWORD ((0 : Nat) + (([3, 105, 200] : List Nat).length : Int) * 100) :=
  ⟨⟨by decide, by decide, by decide, trivial⟩,
    (scheduled_wake_no_drift countingMain 100 Ptr.null 0 0 [3, 105, 200] (by decide) (by decide)
      (fun _ _ => rfl) ⟨by decide, by decide, by decide, trivial⟩).1⟩

/-- On schedule (the clock reads exactly the scheduled wake), the timeout is one
period. -/
theorem waitTimeout_on_schedule (t : PeriodicThread σ) (P : Nat) (hP0 : 0 < P)
    (hP1 : P < 2147483648) (hp : t.m_SyncPeriod = (P : Int)) :
    waitTimeout t.nextUpdateTime t = P := by
  have hfin := noPeriodicWake_of_pos t.m_SyncPeriod (by omega) (by omega)
  unfold waitTimeout timeTillNextUpdate
  rw [hfin, hp]
  simp only [Bool.false_eq_true, if_false]
  have hX : toLong (toDWORD ((t.nextUpdateTime : Int) + (P : Int) - (t.nextUpdateTime : Int))) =
      (P : Int) := by
    unfold toLong toDWORD
    split_ifs <;> omega
  rw [hX, max_eq_left (by omega)]
  unfold toDWORD
  omega

theorem simulate_count (Main : σ → Ptr → σ × Bool) (hcont : ∀ u p, (Main u p).2 = false)
    (P : Nat) (hP0 : 0 < P) (hP1 : P < 2147483648) (t0 T : Nat) (fuel : Nat) :
    ∀ (k : Nat) (t : PeriodicThread σ), t.m_SyncPeriod = (P : Int) → t.done = false →
      t.nextUpdateTime = (t0 + k * P) % 4294967296 → k ≤ T / P → T / P - k < fuel →
      (simulate Main (t0 + T) fuel (t0 + k * P) t).calls =
        t.calls ++ List.replicate (T / P - k) t.pContext ∧
      (simulate Main (t0 + T) fuel (t0 + k * P) t).done = false := by
  induction fuel with
  | zero => intro k t _ _ _ _ hf; omega
  | succ fuel ih =>
    intro k t hp hd hnext hk hf
    have hd' := waitTimeout_on_schedule t P hP0 hP1 hp
    have hne : ¬ (P = INFINITE) := by unfold INFINITE; omega
    simp only [simulate]
    rw [← hnext, hd', hd]
    simp only [Bool.false_eq_true, if_false, hne]
    by_cases hdl : t0 + T < t0 + k * P + P
    · rw [if_pos hdl]
      have hT : T / P < k + 1 := by
        rw [Nat.div_lt_iff_lt_mul hP0]
        have e : (k + 1) * P = k * P + P := by ring
        omega
      have hk' : T / P - k = 0 := by omega
      obtain ⟨_, _, h3, h4, _⟩ := schedule_fields t.nextUpdateTime t
      rw [h3, h4, hk']
      simp [hd]
    · rw [if_neg hdl]
      have hT : k + 1 ≤ T / P := by
        rw [Nat.le_div_iff_mul_le hP0]
        have e : (k + 1) * P = k * P + P := by ring
        omega
      obtain ⟨h1, _, h3⟩ := body_timeout Main t.nextUpdateTime t
      have hn := body_negligible Main t t.nextUpdateTime WAIT_TIMEOUT (by omega)
        (by rw [hp]; unfold toDWORD; omega)
      have e : t0 + k * P + P = t0 + (k + 1) * P := by ring
      rw [e]
      have hnext' : (ThreadMain_body Main t.nextUpdateTime WAIT_TIMEOUT t).nextUpdateTime =
          (t0 + (k + 1) * P) % 4294967296 := by
        rw [hn, hp, hnext, ← e]
        unfold toDWORD
        omega
      obtain ⟨i1, i2⟩ := ih (k + 1) (ThreadMain_body Main t.nextUpdateTime WAIT_TIMEOUT t)
        (by rw [body_m_SyncPeriod, hp]) (by rw [h3, hcont]) hnext' hT (by omega)
      refine ⟨?_, i2⟩
      rw [i1, h1, body_pContext]
      have hs : T / P - k = (T / P - (k + 1)) + 1 := by omega
      rw [hs, List.replicate_succ]
      simp

/-- With the counting unit of work the counter equals the number of
invocations throughout a simulated run. -/
theorem simulate_counter (deadline fuel : Nat) :
    ∀ (clock : Nat) (t : PeriodicThread Nat), t.user = t.calls.length →
      (simulate countingMain deadline fuel clock t).user =
        (simulate countingMain deadline fuel clock t).calls.length := by
  induction fuel with
  | zero => intro clock t h; simpa [simulate] using h
  | succ fuel ih =>
    intro clock t h
    obtain ⟨_, s2, s3, _, _⟩ := schedule_fields (clock % 4294967296) t
    simp only [simulate]
    split_ifs
    · exact h
    · rw [s2, s3]; exact h
    · rw [s2, s3]; exact h
    · apply ih
      obtain ⟨h1, h2, _⟩ := body_timeout countingMain (clock % 4294967296) t
      rw [h1, h2]
      simp [countingMain, h]

/-- C8. Simulated-time run of a `PeriodicThread` with period `P > 0` (an `int`)
started at simulated time `t0`, with the counting unit of work, waits that end
by timeout exactly at the scheduled wake and no stop signal: with enough fuel
for the run to reach the deadline, the counter after `T` ticks is `T / P` or
`T / P + 1`, and it is the number of invocations; with `P = 100` and `T = 350`
it is `3` or `4`, not `2` and not `5`. -/
theorem simulated_wake_count (P t0 T fuel : Nat) (pContext : Ptr) (hP0 : 0 < P)
    (hP1 : P < 2147483648) (hfuel : T / P < fuel) :
    ((simulate countingMain (t0 + T) fuel t0
        (start (P : Int) pContext 0 (t0 % 4294967296))).user = T / P ∨
     (simulate countingMain (t0 + T) fuel t0
        (start (P : Int) pContext 0 (t0 % 4294967296))).user = T / P + 1) ∧
    (simulate countingMain (t0 + T) fuel t0
        (start (P : Int) pContext 0 (t0 % 4294967296))).calls.length =
      (simulate countingMain (t0 + T) fuel t0
        (start (P : Int) pContext 0 (t0 % 4294967296))).user ∧
    (P = 100 → T = 350 →
      ((simulate countingMain (t0 + T) fuel t0
          (start (P : Int) pContext 0 (t0 % 4294967296))).user = 3 ∨
       (simulate countingMain (t0 + T) fuel t0
          (start (P : Int) pContext 0 (t0 % 4294967296))).user = 4) ∧
      (simulate countingMain (t0 + T) fuel t0
          (start (P : Int) pContext 0 (t0 % 4294967296))).user ≠ 2 ∧
      (simulate countingMain (t0 + T) fuel t0
          (start (P : Int) pContext 0 (t0 % 4294967296))).user ≠ 5) := by
  have hc := simulate_counter (t0 + T) fuel t0 (start (P : Int) pContext 0 (t0 % 4294967296)) rfl
  have hs := (simulate_count countingMain (fun _ _ => rfl) P hP0 hP1 t0 T fuel 0
    (start (P : Int) pContext 0 (t0 % 4294967296)) rfl rfl (by simp [start]) (Nat.zero_le _)
    (by rw [Nat.sub_zero]; exact hfuel)).1
  simp only [Nat.zero_mul, Nat.add_zero, Nat.sub_zero] at hs
  have hu : (simulate countingMain (t0 + T) fuel t0
      (start (P : Int) pContext 0 (t0 % 4294967296))).user = T / P := by
    rw [hc, hs]
    simp [start]
  refine ⟨Or.inl hu, hc.symm, ?_⟩
  intro h100 h350
  rw [hu, h100, h350]
  decide

/-- Instance of C8: period `100`, `350` ticks, started shortly before the tick counter wraps. -/
theorem simulated_wake_count_witness :
    (0 < 100 ∧ 100 < 2147483648 ∧ 350 / 100 < 4) ∧
    ((simulate countingMain (4294967000 + 350) 4 4294967000
        (start ((100 : Nat) : Int) Ptr.null 0 (4294967000 % 4294967296))).user = 350 / 100 ∨
     (simulate countingMain (4294967000 + 350) 4 4294967000
        (start ((100 : Nat) : Int) Ptr.null 0 (4294967000 % 4294967296))).user = 350 / 100 + 1) :=
  ⟨by decide,
    (simulated_wake_count 100 4294967000 350 4 Ptr.null (by decide) (by decide) (by decide)).1⟩

/-- C9, as stated, fails: the "no periodic wake" period (`INFINITE`, which is
`-1` as an `int`) does not satisfy the constructor's assertion. -/
theorem sentinel_violates_precondition :
    noPeriodicWake (-1) = true ∧ precondition (-1) = false := by
  decide

/-- C9, amended. For a period that is an `int`: the constructor's assertion
holds exactly when the period is strictly positive, so the "no periodic wake"
period violates it like every other non-positive period; and a thread whose
period is nevertheless "no periodic wake" waits with timeout `INFINITE` and
leaves its schedule untouched. -/
theorem precondition_iff_pos (period : Int) (hlo : -2147483648 ≤ period)
    (hhi : period < 2147483648) :
    (precondition period = true ↔ 0 < period) ∧
    (noPeriodicWake period = true ↔ period = -1) ∧
    (noPeriodicWake period = true → precondition period = false) ∧
    (∀ (σ : Type) (t : PeriodicThread σ) (currentTime : Nat),
      noPeriodicWake t.m_SyncPeriod = true →
      waitTimeout currentTime t = INFINITE ∧ ThreadMain_schedule currentTime t = t) := by
  have h1 : precondition period = true ↔ 0 < period := by
    unfold precondition toDWORD INFINITE
    simp
    omega
  have h2 : noPeriodicWake period = true ↔ period = -1 := by
    unfold noPeriodicWake toDWORD INFINITE
    simp
    omega
  refine ⟨h1, h2, ?_, ?_⟩
  · intro hs
    have hm := h2.mp hs
    cases hpre : precondition period with
    | false => rfl
    | true => have := h1.mp hpre; omega
  · intro σ t currentTime hs
    constructor
    · unfold waitTimeout timeTillNextUpdate
      rw [hs, if_pos rfl]
      decide
    · unfold ThreadMain_schedule
      rw [hs]
      rfl

/-- Instance of C9, amended: period `100`. -/
theorem precondition_iff_pos_witness :
    ((-2147483648 : Int) ≤ 100 ∧ (100 : Int) < 2147483648) ∧
    (precondition 100 = true ↔ (0 : Int) < 100) :=
  ⟨by decide, (precondition_iff_pos 100 (by decide) (by decide)).1⟩

end PeriodicThread

/-! ## Theorems: construction -/

theorem erase_handle_cons (h : HANDLE) (held : Resources) :
    (Resource.handle h :: held).erase (Resource.handle h) = held := by
  simp

theorem erase_criticalSection_cons (cs : Nat) (held : Resources) :
    (Resource.criticalSection cs :: held).erase (Resource.criticalSection cs) = held := by
  simp

theorem Thread_dtor_of_not_held (signalled : HANDLE → Bool) (m_Handle : HANDLE)
    (held : Resources) (h : m_Handle = 0 ∨ Resource.handle m_Handle ∉ held) :
    Thread_dtor signalled m_Handle held = some held := by
  unfold Thread_dtor Thread_End waitForHandleReturns CloseHandle
  rcases h with h | h
  · simp [h]
  · by_cases h0 : m_Handle = 0
    · simp [h0]
    · simp [h0, h, List.erase_of_not_mem h]

/-- The body of the `ActivatedThread` constructor when it fails. -/
theorem ActivatedThread_ctor_failure (m_Handle0 : HANDLE) (cs : Nat) (hEvent hThread : HANDLE)
    (held : Resources) (hfail : hEvent = 0 ∨ hThread = 0) :
    ActivatedThread_ctor m_Handle0 cs hEvent hThread held =
      { held := held, m_Handle := if hEvent = 0 then m_Handle0 else 0,
        thrown := some CtorError.ConstructorFailedException } := by
  unfold ActivatedThread_ctor
  by_cases he : hEvent = 0
  · simp [he, CreateEvent, InitializeCriticalSection, DeleteCriticalSection]
  · have ht : hThread = 0 := by
      rcases hfail with h | h
      · exact absurd h he
      · exact h
    simp [he, ht, CreateEvent, beginthreadex, CloseHandle, InitializeCriticalSection,
      DeleteCriticalSection]

/-- The body of the `PeriodicThread` constructor when it fails. -/
theorem PeriodicThread_ctor_failure (NDEBUG : Bool) (period : Int) (m_Handle0 : HANDLE)
    (hEvent hThread : HANDLE) (held : Resources) (hfail : hEvent = 0 ∨ hThread = 0)
    (hassert : NDEBUG = true ∨ PeriodicThread.precondition period = true) :
    PeriodicThread_ctor NDEBUG period m_Handle0 hEvent hThread held =
      { held := held, m_Handle := if hEvent = 0 then m_Handle0 else 0,
        thrown := some CtorError.ConstructorFailedException } := by
  have ha : (!NDEBUG && !PeriodicThread.precondition period) = false := by
    rcases hassert with h | h <;> simp [h]
  unfold PeriodicThread_ctor
  rw [ha]
  by_cases he : hEvent = 0
  · simp [he, CreateEvent]
  · have ht : hThread = 0 := by
      rcases hfail with h | h
      · exact absurd h he
      · exact h
    simp [he, ht, CreateEvent, beginthreadex, CloseHandle]

/-- Where construction does hand the exception to the caller with the held
resources unchanged: `_beginthreadex` failed (`m_Handle` is then `0`), or the
never-assigned `m_Handle` is `NULL` or no handle of a held resource. -/
theorem construct_failure_of_not_held (signalled : HANDLE → Bool) (NDEBUG : Bool) (period : Int)
    (m_Handle0 : HANDLE) (cs : Nat) (hEvent hThread : HANDLE) (held : Resources)
    (hfail : hEvent = 0 ∨ hThread = 0)
    (hassert : NDEBUG = true ∨ PeriodicThread.precondition period = true)
    (hg : hEvent ≠ 0 ∨ m_Handle0 = 0 ∨ Resource.handle m_Handle0 ∉ held) :
    construct signalled (ActivatedThread_ctor m_Handle0 cs hEvent hThread held) =
      some { held := held, m_Handle := if hEvent = 0 then m_Handle0 else 0,
             thrown := some CtorError.ConstructorFailedException } ∧
    construct signalled (PeriodicThread_ctor NDEBUG period m_Handle0 hEvent hThread held) =
      some { held := held, m_Handle := if hEvent = 0 then m_Handle0 else 0,
             thrown := some CtorError.ConstructorFailedException } := by
  have hA := ActivatedThread_ctor_failure m_Handle0 cs hEvent hThread held hfail
  have hQ := PeriodicThread_ctor_failure NDEBUG period m_Handle0 hEvent hThread held hfail hassert
  rw [hA, hQ]
  have hd : Thread_dtor signalled (if hEvent = 0 then m_Handle0 else 0) held = some held := by
    apply Thread_dtor_of_not_held
    by_cases he : hEvent = 0
    · rw [if_pos he]
      rcases hg with h | h
      · exact absurd he h
      · exact h
    · rw [if_neg he]
      exact Or.inl rfl
  simp [construct, hd]

/-- C10. The code breaks the claim when `CreateEvent` fails. The process holds
one resource, the handle `4`; the member `m_Handle`, which `Thread::Thread()`
never assigns, happens to contain `4`. Both constructors release what they
created and throw `ConstructorFailedException` with the held resources
unchanged; then `Thread::~Thread` runs on the base subobject with that
`m_Handle`. If the object behind handle `4` is signalled, the destructor closes
it, and the caller receives the exception holding nothing; if it is not
signalled, the destructor's `End()` waits for ever and the exception never
reaches the caller. -/
theorem failed_construction_unassigned_m_Handle :
    ((ActivatedThread_ctor 4 4096 0 16 [Resource.handle 4]).thrown =
        some CtorError.ConstructorFailedException ∧
      (ActivatedThread_ctor 4 4096 0 16 [Resource.handle 4]).held = [Resource.handle 4] ∧
      (ActivatedThread_ctor 4 4096 0 16 [Resource.handle 4]).m_Handle = 4) ∧
    ((PeriodicThread_ctor false 100 4 0 16 [Resource.handle 4]).thrown =
        some CtorError.ConstructorFailedException ∧
      (PeriodicThread_ctor false 100 4 0 16 [Resource.handle 4]).held = [Resource.handle 4] ∧
      (PeriodicThread_ctor false 100 4 0 16 [Resource.handle 4]).m_Handle = 4) ∧
    construct (fun _ => true) (ActivatedThread_ctor 4 4096 0 16 [Resource.handle 4]) =
      some { held := [], m_Handle := 4, thrown := some CtorError.ConstructorFailedException } ∧
    construct (fun _ => true) (PeriodicThread_ctor false 100 4 0 16 [Resource.handle 4]) =
      some { held := [], m_Handle := 4, thrown := some CtorError.ConstructorFailedException } ∧
    construct (fun _ => false) (ActivatedThread_ctor 4 4096 0 16 [Resource.handle 4]) = none ∧
    construct (fun _ => false) (PeriodicThread_ctor false 100 4 0 16 [Resource.handle 4]) =
      none := by
  decide

end ThreadLib
